import Mathlib

/-!
Verification of the AGENTS.md build pipeline (`scripts/build-agents.cjs`) and
the watch driver (`scripts/watch-agents.cjs`).

Strings are modelled as `List Char`.  Each definition below embeds the
correspondingly named function of the source; regular-expression matching is
embedded by its search semantics (leftmost match, lazy/greedy quantifier
resolution spelled out at each use site).
-/

namespace Skills

/-- Strings of the embedded program, modelled as lists of characters. -/
abbrev Str := List Char

/-- Converts a Lean string literal into the `List Char` model. -/
def str (s : String) : Str := s.toList

/-- The JavaScript `\s` character class (whitespace), also used by
`String.prototype.trim`. -/
def isJsSpace (c : Char) : Bool :=
  c == ' ' || c == '\t' || c == '\n' || c == '\x0b' || c == '\x0c' || c == '\r' ||
  c == ' ' || c == ' ' || (' ' ≤ c && c ≤ ' ') ||
  c == ' ' || c == ' ' || c == ' ' || c == ' ' || c == '　' ||
  c == '﻿'

/-- The JavaScript `\w` character class: ASCII letters, digits and underscore. -/
def isWordChar (c : Char) : Bool :=
  ('a' ≤ c && c ≤ 'z') || ('A' ≤ c && c ≤ 'Z') || ('0' ≤ c && c ≤ '9') || c == '_'

/-- ASCII lowercasing, as `String.prototype.toLowerCase` acts on the ASCII
range (the only range that matters downstream of the `\w`-filter). -/
def toLowerJs (c : Char) : Char :=
  if 'A' ≤ c ∧ c ≤ 'Z' then Char.ofNat (c.toNat + 32) else c

/-- `String.prototype.trim`: strip `\s` characters from both ends. -/
def trimJs (cs : Str) : Str :=
  ((cs.dropWhile isJsSpace).reverse.dropWhile isJsSpace).reverse

/-- One right-fold step of `collapseWs`: the flag records whether the text to
the right begins with a whitespace run (whose single hyphen is already in the
accumulator). -/
def collapseStep (c : Char) (acc : Bool × Str) : Bool × Str :=
  if isJsSpace c then (true, if acc.1 then acc.2 else '-' :: acc.2)
  else (false, c :: acc.2)

/-- `.replace(/\s+/g, '-')`: each maximal run of whitespace becomes one
hyphen. -/
def collapseWs (l : Str) : Str := (l.foldr collapseStep (false, [])).2

/-- `createAnchor` (build-agents.cjs:121-126): lowercase, drop characters
outside `[\w\s-]`, then collapse whitespace runs to single hyphens. -/
def createAnchor (title : Str) : Str :=
  collapseWs ((title.map toLowerJs).filter
    (fun c => isWordChar c || isJsSpace c || c == '-'))

/-- `pat.isPrefixOf (cs.drop i)`: the pattern occurs at index `i`. -/
def substrAt (cs : Str) (i : Nat) (pat : Str) : Bool :=
  pat.isPrefixOf (cs.drop i)

/-- Index of the leftmost occurrence of `pat` in `cs`, the search order of a
lazy regular-expression quantifier and of `String.prototype.match`. -/
def firstIdx (pat : Str) : Str → Option Nat
  | [] => if pat.isPrefixOf [] then some 0 else none
  | c :: cs =>
    if pat.isPrefixOf (c :: cs) then some 0 else (firstIdx pat cs).map (· + 1)

/-- Whether `pat` occurs anywhere in `cs`. -/
def containsSub (pat cs : Str) : Bool := (firstIdx pat cs).isSome

/-- One line of a frontmatter block (build-agents.cjs:47-53): split at every
colon, the first piece is the key (skipped when empty or when there is no
colon), the remaining pieces re-joined with `:` and trimmed are the value. -/
def parseFMLine (line : Str) : Option (Str × Str) :=
  match line.splitOn ':' with
  | [] => none
  | [_] => none
  | k :: vs =>
    if k = [] then none
    else some (trimJs k, trimJs (List.intercalate [':'] vs))

/-- JavaScript object property assignment, recording the object's internal
property CREATION order: an existing key keeps its position and gets the new
value, a new key is appended.  This list is not yet the enumeration order
`Object.entries` observes — ECMAScript enumerates canonical array-index keys
first, which `jsEntries` below applies on top of this creation order. -/
def fmInsert (fm : List (Str × Str)) (k v : Str) : List (Str × Str) :=
  if fm.any (fun p => p.1 == k) then
    fm.map (fun p => if p.1 == k then (k, v) else p)
  else fm ++ [(k, v)]

/-- Folds `parseFMLine` over the lines of the frontmatter text
(build-agents.cjs:46-53). -/
def parseFMBlock (fmText : Str) : List (Str × Str) :=
  (fmText.splitOn '\n').foldl
    (fun fm line =>
      match parseFMLine line with
      | none => fm
      | some (k, v) => fmInsert fm k v) []

/-- `parseFrontmatter` (build-agents.cjs:35-56).  The regex
`/^---\n([\s\S]*?)\n---\n/` is anchored at the start of the string; the lazy
group ends at the leftmost later occurrence of `"\n---\n"`.  On no match the
whole input is returned unchanged with an empty map. -/
def parseFrontmatter (content : Str) : List (Str × Str) × Str :=
  if (str "---\n").isPrefixOf content then
    let rest := content.drop 4
    match firstIdx (str "\n---\n") rest with
    | none => ([], content)
    | some i => (parseFMBlock (rest.take i), rest.drop (i + 5))
  else ([], content)

/-- A rule reference extracted from a markdown link (build-agents.cjs:177-181):
display text, file name, and derived anchor. -/
structure RuleRef where
  title : Str
  file : Str
  anchor : Str
deriving DecidableEq, Repr

/-- A section of the skill body (build-agents.cjs:160-167): the authored
number string captured by the heading regex, title, derived anchor, character
span into the body, and contained rule references. -/
structure Section where
  number : Str
  title : Str
  anchor : Str
  startIndex : Nat
  endIndex : Nat
  rules : List RuleRef
deriving DecidableEq, Repr

/-- Matches one line against `^### (\d+)\. (.+)$` (build-agents.cjs:148),
returning the captured number string and title. -/
def lineMatch (line : Str) : Option (Str × Str) :=
  if (str "### ").isPrefixOf line then
    let rest := line.drop 4
    let ds := rest.takeWhile Char.isDigit
    let rest2 := rest.drop ds.length
    if ds ≠ [] ∧ (str ". ").isPrefixOf rest2 ∧ rest2.drop 2 ≠ [] then
      some (ds, rest2.drop 2)
    else none
  else none

/-- Pairs each line with the character index at which it starts in the
original text (lines are separated by single `'\n'` characters). -/
def withPos : Nat → List Str → List (Nat × Str)
  | _, [] => []
  | pos, l :: ls => (pos, l) :: withPos (pos + l.length + 1) ls

/-- All matches of the global multiline heading regex over the body, in
source order: `(character index of the heading, captured number, captured
title)`. -/
def matchesOf (body : Str) : List (Nat × Str × Str) :=
  (withPos 0 (body.splitOn '\n')).filterMap
    (fun pl => (lineMatch pl.2).map (fun nt => (pl.1, nt.1, nt.2)))

/-- Where the section opened by the current match ends: at the start of the
next match, or at the end of the body when there is none. -/
def nextStart (total : Nat) : List (Nat × Str × Str) → Nat
  | [] => total
  | (q, _, _) :: _ => q

/-- The section-collecting loop (build-agents.cjs:152-170): every match opens
a section starting at its own index and initially ending at the end of the
body; the arrival of the next match moves the previous section's end to the
new match's start. -/
def mkSections (total : Nat) : List (Nat × Str × Str) → List Section
  | [] => []
  | (p, n, t) :: rest =>
    { number := n, title := t, anchor := createAnchor t, startIndex := p,
      endIndex := nextStart total rest,
      rules := [] } :: mkSections total rest

/-- The Section Splitter: sections of a body, before rule extraction. -/
def splitSections (body : Str) : List Section :=
  mkSections body.length (matchesOf body)

/-- Attempts to match the link regex `\[([^\]]+)\]\(rules\/([^)]+\.md)\)`
(build-agents.cjs:84) at the head of the text; on success returns the display
text, the captured file name, and the text after the match. -/
def tryLink : Str → Option (Str × Str × Str)
  | [] => none
  | c :: cs1 =>
    if c = '[' then
      let t := cs1.takeWhile (fun c => c != ']')
      match cs1.drop t.length with
      | ']' :: '(' :: cs2 =>
        if t ≠ [] ∧ (str "rules/").isPrefixOf cs2 then
          let f := (cs2.drop 6).takeWhile (fun c => c != ')')
          match (cs2.drop 6).drop f.length with
          | ')' :: cs4 =>
            if (str ".md").isSuffixOf f ∧ 3 < f.length then some (t, f, cs4)
            else none
          | _ => none
        else none
      | _ => none
    else none

/-- The exec-loop over the link regex (build-agents.cjs:88-93), driven by a
fuel counter: scan left to right; at a match, record the captures and resume
searching after the match; otherwise advance one character.  Each step
consumes at least one character, so fuel `cs.length` never runs out (theorem
`extractGoF_fuel_irrelevant` below). -/
def extractGoF : Nat → Str → List (Str × Str)
  | 0, _ => []
  | fuel + 1, cs =>
    match tryLink cs with
    | some (t, f, rest) => (t, f) :: extractGoF fuel rest
    | none =>
      match cs with
      | [] => []
      | _ :: cs2 => extractGoF fuel cs2

/-- `extractRuleReferences` (build-agents.cjs:82-96). -/
def extractRuleReferences (cs : Str) : List (Str × Str) := extractGoF cs.length cs

/-- A resolved rule file (build-agents.cjs:72-76). -/
structure Rule where
  path : Str
  frontmatter : List (Str × Str)
  content : Str
deriving DecidableEq, Repr

/-- The file system visible to the build: maps a path relative to the rules
directory to the file's content when the file exists. -/
abbrev FS := Str → Option Str

/-- `readRuleFile` (build-agents.cjs:61-77): `none` models the early `null`
return (with a warning) for a missing file. -/
def readRuleFile (fs : FS) (rulePath : Str) : Option Rule :=
  match fs rulePath with
  | none => none
  | some content =>
    let pf := parseFrontmatter content
    some { path := rulePath, frontmatter := pf.1, content := trimJs pf.2 }

/-- Property access `frontmatter[key]` on the parsed map. -/
def fmGet (fm : List (Str × Str)) (k : Str) : Option Str :=
  (fm.find? (fun p => p.1 == k)).map (fun p => p.2)

/-- A JavaScript truthiness test on a frontmatter value: present and
non-empty. -/
def fmTruthy (fm : List (Str × Str)) (k : Str) : Option Str :=
  match fmGet fm k with
  | some v => if v = [] then none else some v
  | none => none

/-- Attaches to a section the rule references extracted from
`skillBody.slice(section.startIndex, section.endIndex)`
(build-agents.cjs:173-182). -/
def attachRules (body : Str) (s : Section) : Section :=
  let span := (body.drop s.startIndex).take (s.endIndex - s.startIndex)
  let refs := (extractRuleReferences span).map
    (fun tf => RuleRef.mk tf.1 tf.2 (createAnchor tf.1))
  { s with rules := refs }

/-- Sections of the skill body with their rules, as computed by
build-agents.cjs:147-182. -/
def sectionsOf (body : Str) : List Section :=
  (splitSections body).map (attachRules body)

/-- Decimal rendering of a number, as JavaScript template interpolation of
`index + 1`. -/
def natStr (n : Nat) : Str := (Nat.repr n).toList

/-- Pairs every element of a list with its 0-based index, starting at `n`. -/
def withIdx (n : Nat) : List α → List (Nat × α)
  | [] => []
  | a :: as => (n, a) :: withIdx (n + 1) as

/-- A top-level table-of-contents entry (build-agents.cjs:106):
`sectionNum. [title](#anchor)` with the 1-based position. -/
def tocSectionEntry (i : Nat) (s : Section) : Str :=
  natStr (i + 1) ++ str ". [" ++ s.title ++ str "](#" ++ s.anchor ++ str ")\n"

/-- A nested table-of-contents entry (build-agents.cjs:109):
`   sectionNum.ruleNum. [title](#anchor)` with both 1-based positions. -/
def tocRuleEntry (i j : Nat) (r : RuleRef) : Str :=
  str "   " ++ natStr (i + 1) ++ str "." ++ natStr (j + 1) ++ str ". [" ++
    r.title ++ str "](#" ++ r.anchor ++ str ")\n"

/-- The table-of-contents text a single section contributes
(build-agents.cjs:104-113). -/
def tocSectionChunk (i : Nat) (s : Section) : Str :=
  tocSectionEntry i s ++
    ((withIdx 0 s.rules).map (fun jr => tocRuleEntry i jr.1 jr.2)).flatten ++ str "\n"

/-- `generateTOC` (build-agents.cjs:101-116). -/
def generateTOC (sections : List Section) : Str :=
  str "## Table of Contents\n\n" ++
    ((withIdx 0 sections).map (fun is => tocSectionChunk is.1 is.2)).flatten

/-- The emitted section heading line (build-agents.cjs:226): it interpolates
`section.number`, the authored number string captured from the source
heading. -/
def sectionHeadingOut (s : Section) : Str :=
  str "## " ++ s.number ++ str ". " ++ s.title ++ str "\n\n"

/-- The emitted rule heading line (build-agents.cjs:235 and 241): the section
component is the authored `section.number`; the rule component is the 1-based
position `ruleIndex + 1`. -/
def ruleHeadingOut (secNumber : Str) (j : Nat) (r : RuleRef) : Str :=
  str "### " ++ secNumber ++ str "." ++ natStr (j + 1) ++ str ". " ++ r.title ++ str "\n\n"

/-- The impact badge (build-agents.cjs:247-249). -/
def impactBadge (impact : Str) : Str :=
  if impact = str "CRITICAL" then str "🔴 CRITICAL"
  else if impact = str "HIGH" then str "🟠 HIGH"
  else if impact = str "MEDIUM" then str "🟡 MEDIUM"
  else str "🟢 LOW"

/-- What a rule contributes after its heading (build-agents.cjs:234-260): for
a missing file, the italic notice and an early return; otherwise the anchor
marker, optional impact badge, optional blockquoted description, the rule
body, and the trailing separator. -/
def renderRuleBody (fs : FS) (r : RuleRef) : Str :=
  match readRuleFile fs r.file with
  | none => str "_Rule file not found: " ++ r.file ++ str "_\n\n"
  | some rd =>
    str "<a name=\"" ++ r.anchor ++ str "\"></a>\n\n" ++
    (match fmTruthy rd.frontmatter (str "impact") with
     | some imp => str "**Impact:** " ++ impactBadge imp ++ str "\n\n"
     | none => []) ++
    (match fmTruthy rd.frontmatter (str "description") with
     | some d => str "> " ++ d ++ str "\n\n"
     | none => []) ++
    rd.content ++ str "\n\n" ++ str "---\n\n"

/-- Everything one rule reference contributes to the output
(build-agents.cjs:229-263). -/
def renderRule (fs : FS) (secNumber : Str) (j : Nat) (r : RuleRef) : Str :=
  ruleHeadingOut secNumber j r ++ renderRuleBody fs r

/-- Everything one section contributes to the output
(build-agents.cjs:225-264). -/
def renderSection (fs : FS) (s : Section) : Str :=
  sectionHeadingOut s ++ str "<a name=\"" ++ s.anchor ++ str "\"></a>\n\n" ++
    ((withIdx 0 s.rules).map (fun jr => renderRule fs s.number jr.1 jr.2)).flatten

/-- The lazy block regex `/## LABEL([\s\S]*?)(?=##|$)/`: the capture runs
from after the first occurrence of the label to the next occurrence of `##`
(or the end of the body). -/
def extractBlock (label : Str) (body : Str) : Option Str :=
  match firstIdx label body with
  | none => none
  | some i =>
    let after := body.drop (i + label.length)
    match firstIdx (str "##") after with
    | none => some after
    | some j => some (after.take j)

/-- The trailing-block regex `/## References([\s\S]*?)$/`: the capture runs
from after the first occurrence of the label to the end of the body. -/
def extractToEnd (label : Str) (body : Str) : Option Str :=
  (firstIdx label body).map (fun i => body.drop (i + label.length))

/-- Numeric value of a digit-string key. -/
def keyToNat (k : Str) : Nat :=
  k.foldl (fun n c => n * 10 + (c.toNat - 48)) 0

/-- A canonical ECMAScript array-index key: `"0"`, or a digit string without
a leading zero, whose value is below 2^32 - 1.  Only such keys are enumerated
numerically first; non-canonical numerals like `"05"` remain ordinary string
keys. -/
def isArrayIndexKey (k : Str) : Bool :=
  match k with
  | [] => false
  | ['0'] => true
  | c :: cs =>
    ('1' ≤ c && c ≤ '9') && cs.all Char.isDigit && keyToNat (c :: cs) < 4294967295

/-- Inserts a pair into a list sorted ascending by the numeric value of the
key. -/
def insertByKey (p : Str × Str) : List (Str × Str) → List (Str × Str)
  | [] => [p]
  | q :: rest =>
    if keyToNat p.1 < keyToNat q.1 then p :: q :: rest else q :: insertByKey p rest

/-- Insertion sort by numeric key value. -/
def sortByKey : List (Str × Str) → List (Str × Str)
  | [] => []
  | p :: rest => insertByKey p (sortByKey rest)

/-- The enumeration order of `Object.entries` (ECMAScript
OrdinaryOwnPropertyKeys) over an object whose properties were created in the
given order: canonical array-index keys first, in ascending numeric order,
then the remaining string keys in creation order. -/
def jsEntries (fm : List (Str × Str)) : List (Str × Str) :=
  sortByKey (fm.filter (fun p => isArrayIndexKey p.1)) ++
    fm.filter (fun p => !isArrayIndexKey p.1)

/-- The frontmatter block the composer emits (build-agents.cjs:198-202):
every parsed key/value pair, iterated by `Object.entries` in ECMAScript
property enumeration order. -/
def emitFrontmatter (fm : List (Str × Str)) : Str :=
  str "---\n" ++ ((jsEntries fm).map (fun p => p.1 ++ str ": " ++ p.2 ++ str "\n")).flatten ++
    str "---\n"

/-- The complete composed document (build-agents.cjs:195-284), with the
generation timestamp supplied as `now`. -/
def buildOutput (skillContent : Str) (fs : FS) (now : Str) : Str :=
  let pf := parseFrontmatter skillContent
  let fm := pf.1
  let body := pf.2
  let sections := sectionsOf body
  emitFrontmatter fm ++ str "\n" ++
  str "# " ++
    (match fmTruthy fm (str "name") with
     | some n => n
     | none => str "Composio Agent Skills") ++ str "\n\n" ++
  (match fmTruthy fm (str "description") with
   | some d => d
   | none => []) ++ str "\n\n" ++
  (match extractBlock (str "## When to Apply") body with
   | some cap => str "## When to Apply\n" ++ trimJs cap ++ str "\n\n"
   | none => []) ++
  generateTOC sections ++
  str "---\n\n" ++
  (sections.map (renderSection fs)).flatten ++
  (match extractBlock (str "## Quick Start") body with
   | some cap => str "## Quick Start\n\n" ++ trimJs cap ++ str "\n\n"
   | none => []) ++
  (match extractToEnd (str "## References") body with
   | some cap => str "## References\n\n" ++ trimJs cap ++ str "\n\n"
   | none => []) ++
  str "\n---\n\n" ++
  str "_This file was automatically generated from individual rule files on " ++ now ++
    str "_\n" ++
  str "_To update, run: `npm run build:agents`_\n"

/-- The warning lines the build logs, one per missing rule file
(build-agents.cjs:65). -/
def buildWarnings (skillContent : Str) (fs : FS) : List Str :=
  ((sectionsOf (parseFrontmatter skillContent).2).map
    (fun s => s.rules.filterMap
      (fun r => match fs r.file with
        | none => some (str "Warning: Rule file not found: " ++ r.file)
        | some _ => none))).flatten

/-- The whole build entry point (build-agents.cjs:131-307): a missing
SKILL.md aborts with a non-zero exit (`Except.error`); otherwise the composed
document is written and the process exits zero (`Except.ok`), carrying the
warnings for missing rule files. -/
def buildAgentsMd (skill : Option Str) (fs : FS) (now : Str) :
    Except Str (Str × List Str) :=
  match skill with
  | none => .error (str "Error: SKILL.md not found")
  | some c => .ok (buildOutput c fs now, buildWarnings c fs)

/-- A filesystem event delivered to the watch driver: either an event on the
watched SKILL.md file, or an event inside the watched rules directory with
the affected filename (which `fs.watch` may omit). -/
inductive WatchEvent where
  | skill (eventType : Str)
  | rules (eventType : Str) (filename : Option Str)
deriving DecidableEq, Repr

/-- Whether an event makes the watch driver rebuild (watch-agents.cjs:54-67):
a `change` event on SKILL.md, or any event in the rules directory whose
truthy filename ends in `.md`. -/
def triggersRebuild : WatchEvent → Bool
  | .skill et => et == str "change"
  | .rules _ fn =>
    match fn with
    | none => false
    | some f => !f.isEmpty && (str ".md").isSuffixOf f

/-- How many builds the watch driver performs on an event trace: one on
startup (watch-agents.cjs:51) plus one per triggering event. -/
def watchBuilds (events : List WatchEvent) : Nat :=
  1 + (events.filter triggersRebuild).length

/-- The fixed command `rebuild` runs (watch-agents.cjs:37). -/
def rebuildCommand : Str := str "node scripts/build-agents.js"

/-- The script path named by `rebuildCommand`. -/
def rebuildScriptPath : Str := str "scripts/build-agents.js"

/-- The script files present in the repository's `scripts/` directory. -/
def repoScriptFiles : List Str :=
  [str "scripts/build-agents.cjs", str "scripts/watch-agents.cjs"]

/-- Outcome of one `rebuild()` call (watch-agents.cjs:32-41). -/
inductive RebuildOutcome where
  | built
  | buildFailedLogged
deriving DecidableEq, Repr

/-- One `rebuild()` call: `execSync` runs the Document Composer only when the
named script exists; otherwise it throws, and the `catch` logs a build
failure without terminating the process. -/
def runRebuild (available : List Str) : RebuildOutcome :=
  if rebuildScriptPath ∈ available then .built else .buildFailedLogged

/-- The outcomes of every build the watch driver performs on an event trace:
the startup build, then one per triggering event; the loop never stops on a
failure. -/
def watchOutcomes (available : List Str) (events : List WatchEvent) : List RebuildOutcome :=
  runRebuild available :: (events.filter triggersRebuild).map (fun _ => runRebuild available)

/-- Stated from the claim's words, for comparison with `triggersRebuild`: an
event qualifies iff it is a change event on the source document, or an event
inside the rules directory whose affected filename ends in the markdown
extension. -/
def qualifiesSpec : WatchEvent → Bool
  | .skill et => et == str "change"
  | .rules _ fn =>
    match fn with
    | none => false
    | some f => (str ".md").isSuffixOf f

/-- Stated from the claim's words: the sections' character ranges tile the
interval from `pos` to `total` — each section starts where the previous one
ended, with no gaps and no overlaps. -/
def tilesFrom (pos total : Nat) : List Section → Bool
  | [] => pos == total
  | s :: rest => pos == s.startIndex && tilesFrom s.endIndex total rest

theorem toNat_ofNat_valid (n : Nat) (h : n < 55296) : (Char.ofNat n).toNat = n := by
  unfold Char.ofNat
  rw [dif_pos (Or.inl h)]
  simp [Char.ofNatAux, Char.toNat, UInt32.toNat]

theorem toLowerJs_not_upper (c : Char) : ¬('A' ≤ toLowerJs c ∧ toLowerJs c ≤ 'Z') := by
  by_cases h : 'A' ≤ c ∧ c ≤ 'Z'
  · have hb : 65 ≤ c.toNat ∧ c.toNat ≤ 90 := ⟨h.1, h.2⟩
    have hd : (toLowerJs c).toNat = c.toNat + 32 := by
      unfold toLowerJs
      rw [if_pos h]
      exact toNat_ofNat_valid _ (by omega)
    intro hc
    have h90 : (toLowerJs c).toNat ≤ 90 := hc.2
    omega
  · have hd : toLowerJs c = c := by
      unfold toLowerJs
      rw [if_neg h]
    rw [hd]
    exact h

theorem toLowerJs_idem (c : Char) : toLowerJs (toLowerJs c) = toLowerJs c := by
  have hnot := toLowerJs_not_upper c
  set d := toLowerJs c
  unfold toLowerJs
  rw [if_neg hnot]

theorem mem_collapseWs {c : Char} : ∀ {l : Str}, c ∈ collapseWs l →
    c = '-' ∨ (c ∈ l ∧ isJsSpace c = false) := by
  have key : ∀ l : Str, ∀ c', c' ∈ (l.foldr collapseStep (false, [])).2 →
      c' = '-' ∨ (c' ∈ l ∧ isJsSpace c' = false) := by
    intro l
    induction l with
    | nil => simp
    | cons d cs ih =>
      intro c' hc'
      rw [List.foldr_cons] at hc'
      by_cases hd : isJsSpace d
      · rw [collapseStep, if_pos hd] at hc'
        simp only at hc'
        have hmem : c' = '-' ∨ c' ∈ (cs.foldr collapseStep (false, [])).2 := by
          split at hc'
          · exact Or.inr hc'
          · rcases List.mem_cons.mp hc' with h1 | h1
            · exact Or.inl h1
            · exact Or.inr h1
        rcases hmem with h1 | h1
        · exact Or.inl h1
        · rcases ih c' h1 with h2 | h2
          · exact Or.inl h2
          · exact Or.inr ⟨List.mem_cons_of_mem _ h2.1, h2.2⟩
      · rw [collapseStep, if_neg hd] at hc'
        simp only at hc'
        rcases List.mem_cons.mp hc' with h1 | h1
        · subst h1
          exact Or.inr ⟨List.mem_cons_self _ _, by simpa using hd⟩
        · rcases ih c' h1 with h2 | h2
          · exact Or.inl h2
          · exact Or.inr ⟨List.mem_cons_of_mem _ h2.1, h2.2⟩
  intro l hc
  exact key l c hc

theorem collapseWs_eq_self {l : Str} (h : ∀ c ∈ l, isJsSpace c = false) :
    collapseWs l = l := by
  have key : ∀ l : Str, (∀ c ∈ l, isJsSpace c = false) →
      l.foldr collapseStep (false, []) = (false, l) := by
    intro l
    induction l with
    | nil => intro _; rfl
    | cons d cs ih =>
      intro hl
      rw [List.foldr_cons, ih (fun c hc => hl c (List.mem_cons_of_mem _ hc)),
        collapseStep, if_neg (by simp [hl d (List.mem_cons_self _ _)])]
  rw [collapseWs, key l h]

/-- C5: the Anchor Generator is deterministic (a pure function: equal titles
give equal anchors), idempotent (applying it to its own output is the
identity), and maps "User ID Best Practices" to "user-id-best-practices". -/
theorem claim5_anchor_pure_deterministic_idempotent :
    (∀ t : Str, createAnchor (createAnchor t) = createAnchor t)
    ∧ createAnchor (str "User ID Best Practices") = str "user-id-best-practices"
    ∧ (∀ t₁ t₂ : Str, t₁ = t₂ → createAnchor t₁ = createAnchor t₂) := by
  refine ⟨?_, by decide, fun t₁ t₂ h => by rw [h]⟩
  intro t
  set a := createAnchor t with ha
  have hmem : ∀ c ∈ a, c = '-' ∨
      ((isWordChar c || isJsSpace c || c == '-') = true ∧ isJsSpace c = false
        ∧ c ∈ (t.map toLowerJs)) := by
    intro c hc
    rcases mem_collapseWs hc with h1 | h1
    · exact Or.inl h1
    · have hf := List.mem_filter.mp h1.1
      exact Or.inr ⟨hf.2, h1.2, hf.1⟩
  have step1 : a.map toLowerJs = a := by
    have : a.map toLowerJs = a.map id := by
      apply List.map_congr_left
      intro c hc
      rcases hmem c hc with h1 | h1
      · rw [h1]; decide
      · rcases List.mem_map.mp h1.2.2 with ⟨d, _, rfl⟩
        exact toLowerJs_idem d
    simpa using this
  have step2 : a.filter (fun c => isWordChar c || isJsSpace c || c == '-') = a := by
    apply List.filter_eq_self.mpr
    intro c hc
    rcases hmem c hc with h1 | h1
    · rw [h1]; decide
    · exact h1.1
  have step3 : collapseWs a = a := by
    apply collapseWs_eq_self
    intro c hc
    rcases hmem c hc with h1 | h1
    · rw [h1]; decide
    · exact h1.2.1
  rw [createAnchor, step1, step2, step3]

/-- Instantiation of the universally quantified parts of the C5 theorem at
concrete titles. -/
theorem claim5_witness :
    createAnchor (createAnchor (str "A b- c!")) = createAnchor (str "A b- c!")
    ∧ createAnchor (str "x") = createAnchor (str "x") :=
  ⟨claim5_anchor_pure_deterministic_idempotent.1 _,
   claim5_anchor_pure_deterministic_idempotent.2.2 _ _ rfl⟩

/-- C6: on input that does not begin with the frontmatter opening delimiter
line `---`, the Frontmatter Parser returns an empty map and the entire input
unchanged as the body. -/
theorem claim6_no_delimiter_returns_input_unchanged (content : Str)
    (h : ¬(content = str "---" ∨ (str "---\n").isPrefixOf content = true)) :
    parseFrontmatter content = ([], content) := by
  rw [parseFrontmatter, if_neg]
  intro hpre
  exact h (Or.inr hpre)

/-- Instantiation of C6 on a concrete delimiter-free document. -/
theorem claim6_witness :
    parseFrontmatter (str "# Title\nbody text") = ([], str "# Title\nbody text") :=
  claim6_no_delimiter_returns_input_unchanged _ (by decide)

theorem firstIdx_some_substrAt {pat : Str} :
    ∀ {cs : Str} {n : Nat}, firstIdx pat cs = some n → substrAt cs n pat = true := by
  intro cs
  induction cs with
  | nil =>
    intro n h
    rw [firstIdx] at h
    split at h
    · next hp =>
      cases h
      simpa [substrAt] using hp
    · cases h
  | cons c cs ih =>
    intro n h
    rw [firstIdx] at h
    split at h
    · next hp =>
      cases h
      simpa [substrAt] using hp
    · rcases Option.map_eq_some'.mp h with ⟨m, hm, rfl⟩
      simpa [substrAt] using ih hm

theorem firstIdx_eq_some {pat : Str} :
    ∀ {cs : Str} {n : Nat}, substrAt cs n pat = true →
      (∀ m < n, substrAt cs m pat = false) → firstIdx pat cs = some n := by
  intro cs
  induction cs with
  | nil =>
    intro n h1 h2
    have hp : pat.isPrefixOf ([] : Str) = true := by
      simpa [substrAt] using h1
    rcases Nat.eq_zero_or_pos n with rfl | hn
    · simp [firstIdx, hp]
    · have := h2 0 hn
      simp [substrAt, hp] at this
  | cons c cs ih =>
    intro n h1 h2
    cases n with
    | zero =>
      rw [firstIdx, if_pos (by simpa [substrAt] using h1)]
    | succ m =>
      have h0 : pat.isPrefixOf (c :: cs) = false := by
        simpa [substrAt] using h2 0 (Nat.succ_pos m)
      rw [firstIdx, if_neg (by simp [h0]),
        ih (by simpa [substrAt] using h1)
          (fun k hk => by simpa [substrAt] using h2 (k + 1) (Nat.succ_lt_succ hk))]
      rfl

theorem substrAt_drop (cs pat : Str) (k i : Nat) :
    substrAt (cs.drop k) i pat = substrAt cs (k + i) pat := by
  simp [substrAt, List.drop_drop, Nat.add_comm]

/-- C10: on input that begins with the opening delimiter line `---` but has
no later `---` line followed by a newline, the Frontmatter Parser treats the
document as having no frontmatter: empty map, entire input (opening `---`
included) returned as the body. -/
theorem claim10_unterminated_frontmatter_returns_input_unchanged (content : Str)
    (h1 : (str "---\n").isPrefixOf content = true ∨ content = str "---")
    (h2 : ∀ i, 3 ≤ i → substrAt content i (str "\n---\n") = false) :
    parseFrontmatter content = ([], content) := by
  rcases h1 with h1 | rfl
  · rw [parseFrontmatter, if_pos h1]
    have hnone : firstIdx (str "\n---\n") (content.drop 4) = none := by
      rcases hsome : firstIdx (str "\n---\n") (content.drop 4) with _ | j
      · rfl
      · have := firstIdx_some_substrAt hsome
        rw [substrAt_drop] at this
        rw [h2 (4 + j) (by omega)] at this
        cases this
    simp only [hnone]
  · decide

/-- Instantiation of C10 on a concrete unterminated-frontmatter document. -/
theorem claim10_witness :
    parseFrontmatter (str "---\ntitle: x\nbody") = ([], str "---\ntitle: x\nbody") := by
  apply claim10_unterminated_frontmatter_returns_input_unchanged
  · exact Or.inl (by decide)
  · intro i hi
    rcases Nat.lt_or_ge i 17 with hlt | hge
    · interval_cases i <;> decide
    · have hdrop : (str "---\ntitle: x\nbody").drop i = [] := by
        apply List.drop_eq_nil_of_le
        have hlen : (str "---\ntitle: x\nbody").length = 17 := rfl
        omega
      rw [substrAt, hdrop]
      decide

theorem isPrefixOf_append_self (l t : Str) : l.isPrefixOf (l ++ t) = true :=
  List.isPrefixOf_iff_prefix.mpr (List.prefix_append l t)

theorem jsEntries_eq_self {fm : List (Str × Str)}
    (h : ∀ p ∈ fm, isArrayIndexKey p.1 = false) : jsEntries fm = fm := by
  have h1 : fm.filter (fun p => isArrayIndexKey p.1) = [] := by
    rw [List.filter_eq_nil_iff]
    intro p hp
    simp [h p hp]
  have h2 : fm.filter (fun p => !isArrayIndexKey p.1) = fm := by
    rw [List.filter_eq_self]
    intro p hp
    simp [h p hp]
  rw [jsEntries, h1, h2, sortByKey]
  rfl

/-- C7 counterexample: parsing the well-formed frontmatter `b: x\n123: y`
yields the pairs in the order of appearance (`b` then `123`), but the block
the composer emits via `Object.entries` lists the canonical array-index key
`123` first — the emitted keys are NOT in their original order of
appearance. -/
theorem claim7_counterexample :
    (parseFrontmatter (str "---\n" ++ (str "b: x\n123: y" ++ str "\n---\n" ++ str "BODY"))).1
      = [(str "b", str "x"), (str "123", str "y")]
    ∧ emitFrontmatter
        (parseFrontmatter (str "---\n" ++ (str "b: x\n123: y" ++ str "\n---\n" ++ str "BODY"))).1
      = str "---\n123: y\nb: x\n---\n"
    ∧ emitFrontmatter
        (parseFrontmatter (str "---\n" ++ (str "b: x\n123: y" ++ str "\n---\n" ++ str "BODY"))).1
      ≠ str "---\nb: x\n123: y\n---\n" := by
  decide

/-- C7 (amended): for a document with a well-formed frontmatter block (the
closing delimiter first occurs right after the authored frontmatter text
`fm`), the parser extracts exactly `fm`'s key/value pairs, and the
frontmatter block the composer emits consists of exactly those pairs in
ECMAScript property enumeration order: canonical array-index keys first in
ascending numeric order, then the remaining keys in their original order of
appearance; when no parsed key is a canonical array-index numeral (the
typical frontmatter), the original order of appearance is preserved. -/
theorem claim7_frontmatter_roundtrip_amended (fm rest : Str)
    (h : ∀ i < fm.length, substrAt (fm ++ str "\n---\n" ++ rest) i (str "\n---\n") = false) :
    parseFrontmatter (str "---\n" ++ (fm ++ str "\n---\n" ++ rest)) = (parseFMBlock fm, rest)
    ∧ emitFrontmatter (parseFrontmatter (str "---\n" ++ (fm ++ str "\n---\n" ++ rest))).1 =
      str "---\n" ++
        ((jsEntries (parseFMBlock fm)).map (fun p => p.1 ++ str ": " ++ p.2 ++ str "\n")).flatten ++
        str "---\n"
    ∧ ((∀ p ∈ parseFMBlock fm, isArrayIndexKey p.1 = false) →
        jsEntries (parseFMBlock fm) = parseFMBlock fm) := by
  have hmain : parseFrontmatter (str "---\n" ++ (fm ++ str "\n---\n" ++ rest)) =
      (parseFMBlock fm, rest) := by
    have hpre : (str "---\n").isPrefixOf (str "---\n" ++ (fm ++ str "\n---\n" ++ rest)) = true :=
      isPrefixOf_append_self _ _
    have hdrop4 : (str "---\n" ++ (fm ++ str "\n---\n" ++ rest)).drop 4 =
        fm ++ str "\n---\n" ++ rest := rfl
    have hdropfm : (fm ++ str "\n---\n" ++ rest).drop fm.length = str "\n---\n" ++ rest := by
      rw [List.append_assoc]
      exact List.drop_left fm _
    have hat : substrAt (fm ++ str "\n---\n" ++ rest) fm.length (str "\n---\n") = true := by
      rw [substrAt, hdropfm]
      exact isPrefixOf_append_self _ _
    have hfi : firstIdx (str "\n---\n") (fm ++ str "\n---\n" ++ rest) = some fm.length :=
      firstIdx_eq_some hat (fun m hm => h m hm)
    have htake : (fm ++ str "\n---\n" ++ rest).take fm.length = fm := by
      rw [List.append_assoc]
      exact List.take_left fm _
    have hdroprest : (fm ++ str "\n---\n" ++ rest).drop (fm.length + 5) = rest := by
      rw [← List.drop_drop, hdropfm]
      rfl
    rw [parseFrontmatter, if_pos hpre]
    simp only [hdrop4, hfi, htake, hdroprest]
  refine ⟨hmain, ?_, fun hk => jsEntries_eq_self hk⟩
  rw [hmain]
  rfl

/-- Instantiation of the amended C7 theorem on a concrete two-key frontmatter
document without array-index keys, where the original order is preserved. -/
theorem claim7_amended_witness :
    parseFrontmatter (str "---\n" ++ (str "name: X\ntags: [a, b]" ++ str "\n---\n" ++ str "BODY"))
      = (parseFMBlock (str "name: X\ntags: [a, b]"), str "BODY")
    ∧ jsEntries (parseFMBlock (str "name: X\ntags: [a, b]"))
      = parseFMBlock (str "name: X\ntags: [a, b]") := by
  have h := claim7_frontmatter_roundtrip_amended (str "name: X\ntags: [a, b]") (str "BODY")
    (by decide)
  exact ⟨h.1, h.2.2 (by decide)⟩

/-- C8: the Watch Driver builds once at startup, and an event triggers a
rebuild exactly when the claim's qualification predicate holds: a change
event on SKILL.md, or a rules-directory event whose filename ends in `.md`;
in particular a rules-directory event for a non-markdown file triggers
nothing, and a trace of events causes exactly one rebuild per qualifying
event. -/
theorem claim8_watch_triggering :
    watchBuilds [] = 1
    ∧ (∀ e, triggersRebuild e = qualifiesSpec e)
    ∧ (∀ events, watchBuilds events = 1 + (events.filter qualifiesSpec).length)
    ∧ (∀ et f, (str ".md").isSuffixOf f = false →
        triggersRebuild (.rules et (some f)) = false) := by
  have heq : ∀ e, triggersRebuild e = qualifiesSpec e := by
    intro e
    cases e with
    | skill et => rfl
    | rules et fn =>
      cases fn with
      | none => rfl
      | some f =>
        cases f with
        | nil => rfl
        | cons c t => simp [triggersRebuild, qualifiesSpec]
  refine ⟨rfl, heq, ?_, ?_⟩
  · intro events
    rw [watchBuilds, List.filter_congr (fun e _ => heq e)]
  · intro et f hf
    simp [triggersRebuild, hf]

/-- Instantiation of C8: a rename event on a non-markdown file in the rules
directory triggers no rebuild, and a change event on SKILL.md does. -/
theorem claim8_witness :
    triggersRebuild (.rules (str "rename") (some (str "notes.txt"))) = false
    ∧ watchBuilds [WatchEvent.skill (str "change"),
        WatchEvent.rules (str "rename") (some (str "notes.txt"))] =
      1 + ([WatchEvent.skill (str "change"),
        WatchEvent.rules (str "rename") (some (str "notes.txt"))].filter qualifiesSpec).length :=
  ⟨claim8_watch_triggering.2.2.2 (str "rename") (str "notes.txt") (by decide),
   claim8_watch_triggering.2.2.1 _⟩

/-- C9: the watch driver's rebuild command names `scripts/build-agents.js`,
which is not among the scripts present in the repository (the build script
is `scripts/build-agents.cjs`), so every rebuild the watch driver performs —
startup build included — fails and is logged while the loop continues to
process the remaining events. -/
theorem claim9_watch_runs_missing_script :
    rebuildCommand = str "node " ++ rebuildScriptPath
    ∧ rebuildScriptPath ∉ repoScriptFiles
    ∧ (∀ events, watchOutcomes repoScriptFiles events =
        List.replicate (watchBuilds events) RebuildOutcome.buildFailedLogged) := by
  refine ⟨by decide, by decide, ?_⟩
  intro events
  have hrun : runRebuild repoScriptFiles = RebuildOutcome.buildFailedLogged := by decide
  rw [watchOutcomes, watchBuilds, hrun, Nat.add_comm, List.replicate_succ,
    List.map_const']

/-- Instantiation of C9 on a concrete one-event trace. -/
theorem claim9_witness :
    watchOutcomes repoScriptFiles [WatchEvent.skill (str "change")] =
      List.replicate (watchBuilds [WatchEvent.skill (str "change")])
        RebuildOutcome.buildFailedLogged :=
  claim9_watch_runs_missing_script.2.2 _

theorem mkSections_length : ∀ (total : Nat) (ms : List (Nat × Str × Str)),
    (mkSections total ms).length = ms.length := by
  intro total ms
  induction ms with
  | nil => rfl
  | cons m rest ih => simp [mkSections, ih]

theorem mkSections_proj : ∀ (total : Nat) (ms : List (Nat × Str × Str)),
    (mkSections total ms).map (fun s => (s.startIndex, s.number, s.title)) = ms := by
  intro total ms
  induction ms with
  | nil => rfl
  | cons m rest ih => simp [mkSections, ih]

theorem mkSections_tiles : ∀ (total : Nat) (ms : List (Nat × Str × Str)),
    tilesFrom (nextStart total ms) total (mkSections total ms) = true := by
  intro total ms
  induction ms with
  | nil => simp [mkSections, nextStart, tilesFrom]
  | cons m rest ih =>
    rcases m with ⟨q, n2, t2⟩
    simp only [mkSections, nextStart, tilesFrom, beq_self_eq_true, Bool.true_and]
    exact ih

theorem matchesOf_length : ∀ (n : Nat) (ls : List Str),
    ((withPos n ls).filterMap
      (fun pl => (lineMatch pl.2).map (fun nt => (pl.1, nt.1, nt.2)))).length
      = (ls.filter (fun l => (lineMatch l).isSome)).length := by
  intro n ls
  induction ls generalizing n with
  | nil => rfl
  | cons l ls ih =>
    rw [withPos, List.filterMap_cons, List.filter_cons]
    cases hm : lineMatch l with
    | none => simp [hm, ih]
    | some nt => simp [hm, ih]

/-- C2 (amended): the Section Splitter returns zero sections exactly when no
line matches the heading pattern, and N sections, in source order and with
the authored captures, when N lines match; the sections' character ranges
tile the body contiguously — no gaps, no overlaps — from the start of the
FIRST MATCHING HEADING to the end of the body (not from the start of the
body: text before the first matching heading belongs to no section). -/
theorem claim2_splitter_partition_amended (body : Str) :
    (splitSections body).length =
      ((body.splitOn '\n').filter (fun l => (lineMatch l).isSome)).length
    ∧ (splitSections body).map (fun s => (s.startIndex, s.number, s.title)) = matchesOf body
    ∧ (match splitSections body with
       | [] => matchesOf body = []
       | s :: _ => tilesFrom s.startIndex body.length (splitSections body) = true) := by
  refine ⟨?_, mkSections_proj _ _, ?_⟩
  · rw [splitSections, mkSections_length, matchesOf, matchesOf_length]
  · cases hm : matchesOf body with
    | nil => simp [splitSections, hm, mkSections]
    | cons m rest =>
      rcases m with ⟨p, n, t⟩
      have hsec : splitSections body = mkSections body.length ((p, n, t) :: rest) := by
        rw [splitSections, hm]
      have htiles := mkSections_tiles body.length ((p, n, t) :: rest)
      simp only [mkSections, nextStart] at htiles ⊢
      simp only [hsec, mkSections]
      exact htiles

/-- C2 counterexample: on the body `"x\n### 1. A\ny"` exactly one line
matches, one section is returned, but its character range starts at index 2,
so the ranges do not partition the ENTIRE body as the claim states — the
two characters before the heading are uncovered. -/
theorem claim2_counterexample :
    (splitSections (str "x\n### 1. A\ny")).length = 1
    ∧ (splitSections (str "x\n### 1. A\ny")).map (fun s => s.startIndex) = [2]
    ∧ tilesFrom 0 (str "x\n### 1. A\ny").length (splitSections (str "x\n### 1. A\ny"))
        = false := by
  decide

theorem suffix_append_left {s l : Str} (h : s <:+ l) (x : Str) : s <:+ x ++ l := by
  obtain ⟨t, rfl⟩ := h
  exact ⟨x ++ t, by simp⟩

theorem not_sep_suffix_of_underscore (X : Str) : ¬ (str "---\n\n") <:+ (X ++ str "_\n\n") := by
  rintro ⟨t, ht⟩
  have hrev := congrArg List.reverse ht
  simp only [List.reverse_append] at hrev
  simp [str] at hrev

/-- C3 counterexample: for a concrete missing rule the composer emits the
heading directly followed by the italic notice, with NO anchor marker
`<a name=...>` in between, contradicting the claim that the heading and its
anchor marker are rendered. -/
theorem claim3_counterexample :
    renderRule (fun _ => none) (str "1") 0 (RuleRef.mk (str "T") (str "f.md") (str "t"))
      = str "### 1.1. T\n\n_Rule file not found: f.md_\n\n"
    ∧ containsSub (str "<a name=")
        (renderRule (fun _ => none) (str "1") 0
          (RuleRef.mk (str "T") (str "f.md") (str "t"))) = false := by
  decide

/-- C3 (amended): a Rule Reference whose file is missing renders as its
heading followed immediately by the italic "rule file not found" notice — no
anchor marker is emitted for it — and without the trailing horizontal-rule
separator; a successfully resolved rule's rendering does end with that
separator. -/
theorem claim3_missing_rule_rendering_amended (fs : FS) (num : Str) (j : Nat) (r : RuleRef) :
    (fs r.file = none →
      renderRule fs num j r =
        ruleHeadingOut num j r ++ (str "_Rule file not found: " ++ (r.file ++ str "_\n\n"))
      ∧ ¬ (str "---\n\n") <:+ renderRule fs num j r)
    ∧ (∀ content, fs r.file = some content → (str "---\n\n") <:+ renderRule fs num j r) := by
  constructor
  · intro hmiss
    have hread : readRuleFile fs r.file = none := by
      rw [readRuleFile, hmiss]
    have hrr : renderRule fs num j r =
        ruleHeadingOut num j r ++ (str "_Rule file not found: " ++ (r.file ++ str "_\n\n")) := by
      rw [renderRule, renderRuleBody, hread]
      simp [List.append_assoc]
    refine ⟨hrr, ?_⟩
    rw [hrr, show ruleHeadingOut num j r ++ (str "_Rule file not found: " ++ (r.file ++ str "_\n\n"))
      = (ruleHeadingOut num j r ++ str "_Rule file not found: " ++ r.file) ++ str "_\n\n" by
        simp [List.append_assoc]]
    exact not_sep_suffix_of_underscore _
  · intro content hsome
    have hread : readRuleFile fs r.file =
        some { path := r.file, frontmatter := (parseFrontmatter content).1,
               content := trimJs (parseFrontmatter content).2 } := by
      rw [readRuleFile, hsome]
    have hsuffix : (str "---\n\n") <:+ renderRuleBody fs r := by
      rw [renderRuleBody, hread]
      exact List.suffix_append _ _
    rw [renderRule]
    exact suffix_append_left hsuffix _

/-- Instantiation of the two hypothesis-guarded parts of the C3 theorem. -/
theorem claim3_amended_witness :
    (¬ (str "---\n\n") <:+ renderRule (fun _ => none) (str "2") 1
        (RuleRef.mk (str "U") (str "g.md") (str "u")))
    ∧ (str "---\n\n") <:+ renderRule (fun _ => some (str "B")) (str "2") 1
        (RuleRef.mk (str "U") (str "g.md") (str "u")) :=
  ⟨((claim3_missing_rule_rendering_amended (fun _ => none) (str "2") 1
      (RuleRef.mk (str "U") (str "g.md") (str "u"))).1 rfl).2,
   (claim3_missing_rule_rendering_amended (fun _ => some (str "B")) (str "2") 1
      (RuleRef.mk (str "U") (str "g.md") (str "u"))).2 (str "B") rfl⟩

theorem inf_left {p x : Str} (h : p <:+: x) (a : Str) : p <:+: a ++ x := by
  obtain ⟨s, t, rfl⟩ := h
  exact ⟨a ++ s, t, by simp⟩

theorem inf_right {p x : Str} (h : p <:+: x) (b : Str) : p <:+: x ++ b := by
  obtain ⟨s, t, rfl⟩ := h
  exact ⟨s, t ++ b, by simp⟩

theorem infix_flatten_map {α : Type} (f : α → Str) {l : List α} {a : α} (ha : a ∈ l)
    {p : Str} (h : p <:+: f a) : p <:+: (l.map f).flatten := by
  obtain ⟨l1, l2, rfl⟩ := List.append_of_mem ha
  obtain ⟨s, t, hst⟩ := h
  refine ⟨(l1.map f).flatten ++ s, t ++ (l2.map f).flatten, ?_⟩
  simp [← hst, List.append_assoc]

theorem mem_withIdx_of_getElem? {α : Type} :
    ∀ (l : List α) (n i : Nat) (a : α), l.get? i = some a → (n + i, a) ∈ withIdx n l := by
  intro l
  induction l with
  | nil => intro n i a h; simp at h
  | cons x xs ih =>
    intro n i a h
    cases i with
    | zero =>
      simp only [List.get?] at h
      cases h
      simp [withIdx]
    | succ i =>
      have hmem := ih (n + 1) i a (by simpa using h)
      have harith : n + (i + 1) = (n + 1) + i := by omega
      rw [withIdx, harith]
      exact List.mem_cons_of_mem _ hmem

theorem mem_withIdx_zero {α : Type} {l : List α} {i : Nat} {a : α} (h : l.get? i = some a) :
    (i, a) ∈ withIdx 0 l := by
  have := mem_withIdx_of_getElem? l 0 i a h
  simpa using this

theorem renderSection_infix_buildOutput (c : Str) (fs : FS) (now : Str) {s : Section}
    (hs : s ∈ sectionsOf (parseFrontmatter c).2) {p : Str} (hp : p <:+: renderSection fs s) :
    p <:+: buildOutput c fs now := by
  have h1 : p <:+: ((sectionsOf (parseFrontmatter c).2).map (renderSection fs)).flatten :=
    infix_flatten_map (renderSection fs) hs hp
  simp only [buildOutput]
  apply inf_right
  apply inf_right
  apply inf_right
  apply inf_right
  apply inf_right
  apply inf_right
  apply inf_right
  exact inf_left h1 _

theorem toc_infix_buildOutput (c : Str) (fs : FS) (now : Str) {p : Str}
    (hp : p <:+: generateTOC (sectionsOf (parseFrontmatter c).2)) :
    p <:+: buildOutput c fs now := by
  simp only [buildOutput]
  apply inf_right
  apply inf_right
  apply inf_right
  apply inf_right
  apply inf_right
  apply inf_right
  apply inf_right
  apply inf_right
  apply inf_right
  exact inf_left hp _

theorem tocSectionEntry_in_toc {sections : List Section} {i : Nat} {s : Section}
    (h : sections.get? i = some s) :
    tocSectionEntry i s <:+: generateTOC sections := by
  have hchunk : tocSectionEntry i s <:+: tocSectionChunk i s := by
    rw [tocSectionChunk]
    exact inf_right (inf_right (List.infix_refl _) _) _
  rw [generateTOC]
  apply inf_left
  apply infix_flatten_map
  · exact mem_withIdx_zero h
  · exact hchunk

theorem tocRuleEntry_in_toc {sections : List Section} {i j : Nat} {s : Section} {r : RuleRef}
    (h : sections.get? i = some s) (hr : s.rules.get? j = some r) :
    tocRuleEntry i j r <:+: generateTOC sections := by
  have hchunk : tocRuleEntry i j r <:+: tocSectionChunk i s := by
    rw [tocSectionChunk]
    apply inf_right
    apply inf_left
    apply infix_flatten_map
    · exact mem_withIdx_zero hr
    · exact List.infix_refl _
  rw [generateTOC]
  apply inf_left
  apply infix_flatten_map
  · exact mem_withIdx_zero h
  · exact hchunk

theorem sectionHeading_infix_renderSection (fs : FS) (s : Section) :
    sectionHeadingOut s <:+: renderSection fs s := by
  rw [renderSection]
  exact inf_right (inf_right (inf_right (inf_right (List.infix_refl _) _) _) _) _

theorem ruleHeading_infix_renderSection (fs : FS) {s : Section} {j : Nat} {r : RuleRef}
    (hr : s.rules.get? j = some r) :
    ruleHeadingOut s.number j r <:+: renderSection fs s := by
  have hrule : ruleHeadingOut s.number j r <:+: renderRule fs s.number j r := by
    rw [renderRule]
    exact inf_right (List.infix_refl _) _
  rw [renderSection]
  apply inf_left
  apply infix_flatten_map
  · exact mem_withIdx_zero hr
  · exact hrule

theorem warning_mem_buildWarnings (c : Str) (fs : FS) {s : Section} {r : RuleRef}
    (hs : s ∈ sectionsOf (parseFrontmatter c).2) (hr : r ∈ s.rules)
    (hmiss : fs r.file = none) :
    (str "Warning: Rule file not found: " ++ r.file) ∈ buildWarnings c fs := by
  rw [buildWarnings, List.mem_flatten]
  refine ⟨_, List.mem_map_of_mem _ hs, ?_⟩
  rw [List.mem_filterMap]
  exact ⟨r, hr, by rw [hmiss]⟩

/-- C4: a missing individual rule file is never fatal.  With the source
document present, the build returns `Except.ok` (exit code zero) for EVERY
file system — in particular whatever rule files are absent — the composed
output still contains the heading of every section and of every referenced
rule, and a warning is recorded for each missing rule file; only a missing
source document produces `Except.error` (non-zero exit). -/
theorem claim4_missing_rule_never_fatal (skill : Option Str) (c now : Str) (fs : FS)
    (h : skill = some c) :
    buildAgentsMd skill fs now = .ok (buildOutput c fs now, buildWarnings c fs)
    ∧ (∀ i s, (sectionsOf (parseFrontmatter c).2).get? i = some s →
        sectionHeadingOut s <:+: buildOutput c fs now
        ∧ ∀ j r, s.rules.get? j = some r →
            ruleHeadingOut s.number j r <:+: buildOutput c fs now)
    ∧ (∀ s r, s ∈ sectionsOf (parseFrontmatter c).2 → r ∈ s.rules → fs r.file = none →
        (str "Warning: Rule file not found: " ++ r.file) ∈ buildWarnings c fs)
    ∧ (∀ fs2 now2, buildAgentsMd none fs2 now2 = .error (str "Error: SKILL.md not found")) := by
  subst h
  refine ⟨rfl, ?_, ?_, fun _ _ => rfl⟩
  · intro i s hi
    have hs : s ∈ sectionsOf (parseFrontmatter c).2 := List.get?_mem hi
    refine ⟨renderSection_infix_buildOutput c fs now hs
      (sectionHeading_infix_renderSection fs s), ?_⟩
    intro j r hj
    exact renderSection_infix_buildOutput c fs now hs
      (ruleHeading_infix_renderSection fs hj)
  · intro s r hs hr hmiss
    exact warning_mem_buildWarnings c fs hs hr hmiss

/-- Instantiation of C4: a concrete build whose only referenced rule file is
missing still succeeds. -/
theorem claim4_witness :
    buildAgentsMd (some (str "---\nname: X\n---\n### 1. Example\n[My Rule](rules/my-rule.md)"))
        (fun _ => none) (str "T")
      = .ok (buildOutput (str "---\nname: X\n---\n### 1. Example\n[My Rule](rules/my-rule.md)")
          (fun _ => none) (str "T"),
        buildWarnings (str "---\nname: X\n---\n### 1. Example\n[My Rule](rules/my-rule.md)")
          (fun _ => none))
    ∧ (str "Warning: Rule file not found: " ++ str "my-rule.md") ∈
        buildWarnings (str "---\nname: X\n---\n### 1. Example\n[My Rule](rules/my-rule.md)")
          (fun _ => none) := by
  have h := claim4_missing_rule_never_fatal
    (some (str "---\nname: X\n---\n### 1. Example\n[My Rule](rules/my-rule.md)"))
    (str "---\nname: X\n---\n### 1. Example\n[My Rule](rules/my-rule.md)")
    (str "T") (fun _ => none) rfl
  refine ⟨h.1, ?_⟩
  refine h.2.2.1
    (Section.mk (str "1") (str "Example") (str "example") 0 42
      [RuleRef.mk (str "My Rule") (str "my-rule.md") (str "my-rule")])
    (RuleRef.mk (str "My Rule") (str "my-rule.md") (str "my-rule")) ?_ ?_ rfl
  · decide
  · decide

set_option maxRecDepth 40000 in
/-- C1 counterexample: composing a document whose single section is authored
`### 5. Foo` emits the section heading `## 5. Foo` (the authored number) and
the rule heading `### 5.1. R`, never the positional `## 1. Foo` or
`### 1.1. R` — while the table of contents does use the positional `1.` —
so heading numbering is NOT derived purely from list position. -/
theorem claim1_counterexample :
    containsSub (str "## 5. Foo")
      (buildOutput (str "---\nname: X\n---\n### 5. Foo\n[R](rules/r.md)")
        (fun _ => none) (str "T")) = true
    ∧ containsSub (str "## 1. Foo")
        (buildOutput (str "---\nname: X\n---\n### 5. Foo\n[R](rules/r.md)")
          (fun _ => none) (str "T")) = false
    ∧ containsSub (str "1. [Foo](#foo)")
        (buildOutput (str "---\nname: X\n---\n### 5. Foo\n[R](rules/r.md)")
          (fun _ => none) (str "T")) = true
    ∧ containsSub (str "### 5.1. R")
        (buildOutput (str "---\nname: X\n---\n### 5. Foo\n[R](rules/r.md)")
          (fun _ => none) (str "T")) = true
    ∧ containsSub (str "### 1.1. R")
        (buildOutput (str "---\nname: X\n---\n### 5. Foo\n[R](rules/r.md)")
          (fun _ => none) (str "T")) = false := by
  decide

/-- C1 (amended): in the composed document the table-of-contents entries
carry the 1-based positional indices of section and rule, but the emitted
section heading lines and the section component of the rule heading lines
carry the authored number string captured from the source heading
(`s.number`); only the rule component of a rule heading is positional.
Re-ordering input sections therefore renumbers the table of contents but not
the heading lines. -/
theorem claim1_numbering_amended (c : Str) (fs : FS) (now : Str) :
    ∀ i s, (sectionsOf (parseFrontmatter c).2).get? i = some s →
      tocSectionEntry i s <:+: buildOutput c fs now
      ∧ sectionHeadingOut s <:+: buildOutput c fs now
      ∧ ∀ j r, s.rules.get? j = some r →
          tocRuleEntry i j r <:+: buildOutput c fs now
          ∧ ruleHeadingOut s.number j r <:+: buildOutput c fs now := by
  intro i s hi
  have hs : s ∈ sectionsOf (parseFrontmatter c).2 := List.get?_mem hi
  refine ⟨toc_infix_buildOutput c fs now (tocSectionEntry_in_toc hi),
    renderSection_infix_buildOutput c fs now hs (sectionHeading_infix_renderSection fs s), ?_⟩
  intro j r hj
  exact ⟨toc_infix_buildOutput c fs now (tocRuleEntry_in_toc hi hj),
    renderSection_infix_buildOutput c fs now hs (ruleHeading_infix_renderSection fs hj)⟩

/-- Instantiation of the C1 theorem on the authored-number-5 document. -/
theorem claim1_witness :
    tocSectionEntry 0 (Section.mk (str "5") (str "Foo") (str "foo") 0 26
        [RuleRef.mk (str "R") (str "r.md") (str "r")]) <:+:
      buildOutput (str "---\nname: X\n---\n### 5. Foo\n[R](rules/r.md)") (fun _ => none) (str "T")
    ∧ sectionHeadingOut (Section.mk (str "5") (str "Foo") (str "foo") 0 26
        [RuleRef.mk (str "R") (str "r.md") (str "r")]) <:+:
      buildOutput (str "---\nname: X\n---\n### 5. Foo\n[R](rules/r.md)")
        (fun _ => none) (str "T") := by
  have h := claim1_numbering_amended (str "---\nname: X\n---\n### 5. Foo\n[R](rules/r.md)")
    (fun _ => none) (str "T") 0
    (Section.mk (str "5") (str "Foo") (str "foo") 0 26
      [RuleRef.mk (str "R") (str "r.md") (str "r")]) (by decide)
  exact ⟨h.1, h.2.1⟩

end Skills
